import Mathlib

/-!
Verification development for the clinic spreadsheet ingestion and
aggregation pipelines (deposit expiry, revenue validation, deposit
purchase validation, cash-in report validation).

The embedding models:
* spreadsheet cells as a sum type (string, number, anything else),
  with rows as association lists from column header to cell;
* JavaScript numbers as exact rationals (`Rat`); the floating point
  representation is not modelled, which is faithful on the integral
  currency amounts this domain uses;
* JavaScript `Date` values constructed at local midnight as normalized
  civil-calendar triples (year, 0-based month, day), ordered
  chronologically; `new Date(y, m, d)` overflow normalization and the
  1900-shift for years 0..99 are modelled;
* JavaScript objects used as maps as association lists preserving
  insertion order, with property lookup keyed by string equality;
* `Array.prototype.sort` with a comparator as an insertion sort over
  the corresponding boolean total preorder (`localeCompare` is modelled
  as code-point string comparison).
-/

namespace QaTools

/-- A loosely typed spreadsheet cell: a string, a number, or anything
else (absent key, undefined, boolean, ...), which every coercion in the
source treats uniformly through its fallback branch. -/
inductive CellValue where
  | str (s : String)
  | num (q : Rat)
  | other
deriving DecidableEq, Repr

/-- A raw spreadsheet row: a mapping from column header to cell value,
as produced by the spreadsheet reader. -/
abbrev AnyRow := List (String × CellValue)

/-- Association list lookup by string key (JavaScript property access,
first binding wins). -/
def assocLookup {α : Type} (k : String) : List (String × α) → Option α
  | [] => none
  | (k₀, v) :: t => if k₀ = k then some v else assocLookup k t

/-- `row[key]` on a raw row: a missing key reads as the non-string,
non-number cell. -/
def cellAt (row : AnyRow) (key : String) : CellValue :=
  (assocLookup key row).getD CellValue.other

/-- Characters trimmed by JavaScript string-to-number coercion. -/
def isJsSpace (c : Char) : Bool :=
  c = ' ' || c = '\t' || c = '\n' || c = '\r' || c = '\x0b' || c = '\x0c'

/-- Value of a list of decimal digit characters. -/
def digitsToNat (cs : List Char) : Nat :=
  cs.foldl (fun n c => n * 10 + (c.toNat - '0'.toNat)) 0

/-- Ten to an integer power, as a rational. -/
def ratPow10 (e : Int) : Rat :=
  if 0 ≤ e then (10 : Rat) ^ e.toNat else ((1 : Rat) / 10) ^ (-e).toNat

/-- Parse an unsigned JavaScript decimal numeral
(`digits [. digits] [e|E [sign] digits]`, also `.digits` and `digits.`).
Returns `none` where `Number` would yield `NaN`.  Hexadecimal, octal and
binary literal forms are not modelled. -/
def parseUnsignedDec (cs : List Char) : Option Rat :=
  if cs = [] then none
  else
    let mant := cs.takeWhile (fun c => c ≠ 'e' && c ≠ 'E')
    let rest := cs.dropWhile (fun c => c ≠ 'e' && c ≠ 'E')
    let expPart : Option Int :=
      match rest with
      | [] => some 0
      | _ :: er =>
        let esign : Int := match er with | '-' :: _ => -1 | _ => 1
        let ebody := match er with
          | '+' :: r => r
          | '-' :: r => r
          | r => r
        if ebody ≠ [] && ebody.all Char.isDigit then
          some (esign * (digitsToNat ebody : Int))
        else none
    match expPart with
    | none => none
    | some e =>
      let ip := mant.takeWhile (fun c => c ≠ '.')
      let dotRest := mant.dropWhile (fun c => c ≠ '.')
      let fp := match dotRest with
        | [] => []
        | _ :: fr => fr
      if ip.all Char.isDigit && fp.all Char.isDigit && (ip ≠ [] || fp ≠ []) then
        some (((digitsToNat ip : Rat) + (digitsToNat fp : Rat) / (10 : Rat) ^ fp.length)
              * ratPow10 e)
      else none

/-- JavaScript `Number(string)` restricted to finite results: `none`
stands for `NaN` and the infinities, so `Number.isFinite` holds exactly
on `some`.  Whitespace is trimmed, the empty string coerces to 0. -/
def jsNumber (s : String) : Option Rat :=
  let t := ((s.toList.dropWhile isJsSpace).reverse.dropWhile isJsSpace).reverse
  match t with
  | [] => some 0
  | _ =>
    let sign : Rat := match t with | '-' :: _ => -1 | _ => 1
    let body := match t with
      | '+' :: r => r
      | '-' :: r => r
      | r => r
    if body = "Infinity".toList then none
    else match parseUnsignedDec body with
      | some q => some (sign * q)
      | none => none

/-- Truncation toward zero, as JavaScript `ToInteger` applies to the
arguments of the `Date` constructor. -/
def ratTrunc (q : Rat) : Int := Int.tdiv q.num (q.den : Int)

/-- `numberFrom`: a number passes through, a string goes through
`Number` with non-finite results replaced by 0, anything else is 0. -/
def numberFrom (row : AnyRow) (key : String) : Rat :=
  match cellAt row key with
  | CellValue.num n => n
  | CellValue.str s => (jsNumber s).getD 0
  | CellValue.other => 0

/-- Decimal rendering of a rational, used for JavaScript
`String(number)` on the integral cell values of this domain. -/
def ratToString (q : Rat) : String :=
  if q.den = 1 then toString q.num else toString q

/-- `stringFrom`: a string passes through, a number converts to its
decimal text, anything else is the empty string. -/
def stringFrom (row : AnyRow) (key : String) : String :=
  match cellAt row key with
  | CellValue.str s => s
  | CellValue.num n => ratToString n
  | CellValue.other => ""

/-- `lowerStringFrom`: `stringFrom`, case folded. -/
def lowerStringFrom (row : AnyRow) (key : String) : String :=
  (stringFrom row key).toLower

/-- `amountFrom`: a number passes through; a string keeps only its
decimal digit characters and the remaining digit string is read as an
integer, with the empty digit string giving 0.  (The `Number.isFinite`
guard of the source can only fail beyond 10^308, which the exact
integer model treats as finite.) -/
def amountFrom (row : AnyRow) (key : String) : Rat :=
  match cellAt row key with
  | CellValue.num n => n
  | CellValue.str s =>
    let digitsOnly := s.toList.filter Char.isDigit
    if digitsOnly = [] then 0
    else (digitsToNat digitsOnly : Rat)
  | CellValue.other => 0

/-- JavaScript string-or-default: `s || d` for strings, where only the
empty string is falsy. -/
def strOr (s d : String) : String := if s = "" then d else s

/-- A civil calendar date at local midnight: year, 0-based month
(JavaScript convention) and 1-based day of month. -/
structure CivilDate where
  year : Int
  month : Int
  day : Int
deriving DecidableEq, Repr

/-- Leap year under the Gregorian rules. -/
def isLeapYear (y : Int) : Bool :=
  y % 4 = 0 && (y % 100 ≠ 0 || y % 400 = 0)

/-- Number of days of 0-based month `m` of year `y`. -/
def daysInMonth (y m : Int) : Int :=
  if m = 0 then 31
  else if m = 1 then (if isLeapYear y then 29 else 28)
  else if m = 2 then 31
  else if m = 3 then 30
  else if m = 4 then 31
  else if m = 5 then 30
  else if m = 6 then 31
  else if m = 7 then 31
  else if m = 8 then 30
  else if m = 9 then 31
  else if m = 10 then 30
  else 31

/-- Fuelled day-of-month normalization: roll an out-of-range day into
the neighbouring months.  The fuel in `normDays` always suffices, since
every step moves the day at least 28 closer to range. -/
def normDaysF : Nat → Int → Int → Int → CivilDate
  | 0, y, m, d => ⟨y, m, d⟩
  | fuel + 1, y, m, d =>
    if d < 1 then
      let y₂ := if m = 0 then y - 1 else y
      let m₂ := if m = 0 then (11 : Int) else m - 1
      normDaysF fuel y₂ m₂ (d + daysInMonth y₂ m₂)
    else if daysInMonth y m < d then
      let y₂ := if m = 11 then y + 1 else y
      let m₂ := if m = 11 then (0 : Int) else m + 1
      normDaysF fuel y₂ m₂ (d - daysInMonth y m)
    else ⟨y, m, d⟩

/-- Normalize a date whose month is already in 0..11 but whose day may
be out of range. -/
def normDays (y m d : Int) : CivilDate :=
  normDaysF (d.natAbs + 2) y m d

/-- MakeDay: build the normalized civil date for year `y`, 0-based
month `m` (any integer) and day `d` (any integer). -/
def mkCivil (y m d : Int) : CivilDate :=
  let ym := y * 12 + m
  normDays (ym / 12) (ym % 12) d

/-- JavaScript `new Date(y, m, d)` at local midnight: years 0..99 are
shifted into 1900..1999, then month and day overflow normalize. -/
def jsMkDate (y m d : Int) : CivilDate :=
  let y₂ := if 0 ≤ y ∧ y ≤ 99 then y + 1900 else y
  mkCivil y₂ m d

/-- JavaScript `setMonth` on a midnight date: replace the month (any
integer) keeping year and day-of-month, then normalize. -/
def dateSetMonth (dt : CivilDate) (m : Int) : CivilDate :=
  mkCivil dt.year m dt.day

/-- Chronological comparison of normalized civil dates (JavaScript
compares the epoch milliseconds; at local midnight this is the
lexicographic order on the triple). -/
def dateLE (a b : CivilDate) : Bool :=
  a.year < b.year
    || (a.year = b.year
        && (a.month < b.month || (a.month = b.month && a.day ≤ b.day)))

/-- `parseDate`: accept only strings; split off everything from the
first space, split the remainder on `/` into exactly three components
`dd/mm/yyyy`, coerce each with `Number`, and require all three finite;
then build `new Date(year, month - 1, day)`. -/
def parseDate (dateStr : CellValue) : Option CivilDate :=
  match dateStr with
  | CellValue.str s =>
    if s = "" then none
    else
      let parts := ((s.splitOn " ").headD "").splitOn "/"
      if parts.length ≠ 3 then none
      else
        match jsNumber (parts.getD 0 ""), jsNumber (parts.getD 1 ""),
              jsNumber (parts.getD 2 "") with
        | some day, some month, some year =>
          some (jsMkDate (ratTrunc year) (ratTrunc (month - 1)) (ratTrunc day))
        | _, _, _ => none
  | _ => none

/-- `fromDateInputValue`: parse a `YYYY-MM-DD` date-picker value into a
midnight date, `none` when empty, not three `-`-separated parts, or a
component is non-finite. -/
def fromDateInputValue (value : String) : Option CivilDate :=
  if value = "" then none
  else
    let parts := value.splitOn "-"
    if parts.length ≠ 3 then none
    else
      match jsNumber (parts.getD 0 ""), jsNumber (parts.getD 1 ""),
            jsNumber (parts.getD 2 "") with
      | some year, some month, some day =>
        some (jsMkDate (ratTrunc year) (ratTrunc (month - 1)) (ratTrunc day))
      | _, _, _ => none

/-- `depositDateRange`: the selected start date together with the end
date obtained by advancing the month by two. -/
def depositDateRange (startStr : String) : Option (CivilDate × CivilDate) :=
  match fromDateInputValue startStr with
  | none => none
  | some start => some (start, dateSetMonth start (start.month + 2))

/-- A normalized deposit row retained by the deposit pipeline. -/
structure DepositInfoRow where
  clinicCode : String
  userId : String
  omnicareId : String
  userName : String
  phoneNumber : String
  treatmentName : String
  expirationDate : CivilDate
deriving DecidableEq, Repr

/-- Per-clinic revenue accumulator. -/
structure RevenueClinicSummary where
  clinicCode : String
  treatmentRetailPrice : Rat
  treatmentSellingPrice : Rat
  treatmentDiscount : Rat
  productRetailPrice : Rat
  productSellingPrice : Rat
  productDiscount : Rat
  total : Rat
deriving DecidableEq, Repr

/-- Per-clinic deposit purchase accumulator. -/
structure DepositPurchaseClinicSummary where
  clinicCode : String
  totalRetailPrice : Rat
  totalSellingPrice : Rat
  totalDiscount : Rat
  total : Rat
deriving DecidableEq, Repr

/-- Per-clinic cash-in accumulator; `paymentMethodTotals` is the
insertion-ordered object mapping payment method label to amount. -/
structure CashInClinicSummary where
  clinicCode : String
  paymentMethodTotals : List (String × Rat)
  deposit : Rat
  voucher : Rat
  nonDepositVoucher : Rat
  total : Rat
deriving DecidableEq, Repr

/-- Insert-or-update on a clinic map, as the source's
`if (!clinicMap[code]) clinicMap[code] = init; mutate(clinicMap[code])`
pattern: the first binding for the key is updated in place, a missing
key is appended after initialization. -/
def upsert {α : Type} (m : List (String × α)) (k : String) (i : α) (f : α → α) :
    List (String × α) :=
  match m with
  | [] => [(k, f i)]
  | (k₀, v) :: t => if k₀ = k then (k₀, f v) :: t else (k₀, v) :: upsert t k i f

/-- Read a clinic map at a code, falling back to the freshly
initialized summary for that code. -/
def lookupOr {α : Type} (init : String → α) (m : List (String × α)) (c : String) : α :=
  (assocLookup c m).getD (init c)

/-- Generic clinic aggregator: fold the rows into the map, locating or
lazily creating the summary for the row's clinic key and applying the
row's contribution. -/
def aggFold {α : Type} (key : AnyRow → String) (init : String → α)
    (apply : AnyRow → α → α) (rows : List AnyRow) (m : List (String × α)) :
    List (String × α) :=
  rows.foldl (fun m row => upsert m (key row) (init (key row)) (apply row)) m

/-- Insert into a list sorted by the boolean preorder `le`. -/
def insertLE {α : Type} (le : α → α → Bool) (a : α) : List α → List α
  | [] => [a]
  | b :: t => if le a b then a :: b :: t else b :: insertLE le a t

/-- Stable insertion sort by a boolean preorder, modelling
`Array.prototype.sort` with a comparator. -/
def sortByLE {α : Type} (le : α → α → Bool) : List α → List α
  | [] => []
  | a :: t => insertLE le a (sortByLE le t)

/-- Deposit pipeline row-inclusion prefilter: strictly positive
remaining quantity. -/
def depositRowKeep (row : AnyRow) : Bool :=
  0 < numberFrom row "Remaining Quantity"

/-- Deposit pipeline row normalizer: extract the record fields, and
drop the row when the expiration date fails to parse or the user id is
empty. -/
def mkDepositRecord (row : AnyRow) : Option DepositInfoRow :=
  let clinicCode := strOr (stringFrom row "Deposit Purchase Clinic Code") "Unknown"
  let userId := stringFrom row "User ID"
  let omnicareId := strOr (stringFrom row "Omnicare Id")
    (strOr (stringFrom row "Omnicare ID") "")
  let userName := stringFrom row "Name"
  let phoneNumber := stringFrom row "Phone Number"
  let treatmentName := stringFrom row "Treatment Display Name"
  match parseDate (cellAt row "Deposit Expiration Time") with
  | none => none
  | some expirationDate =>
    if userId = "" then none
    else some { clinicCode, userId, omnicareId, userName, phoneNumber,
                treatmentName, expirationDate }

/-- Output order of deposit rows: clinic code ascending, then
expiration date ascending. -/
def depositLE (a b : DepositInfoRow) : Bool :=
  a.clinicCode < b.clinicCode
    || (a.clinicCode = b.clinicCode && dateLE a.expirationDate b.expirationDate)

/-- Deposit pipeline: keep rows with positive remaining quantity,
normalize them dropping malformed rows, and sort. -/
def handleFileUpload (rows : List AnyRow) : List DepositInfoRow :=
  sortByLE depositLE ((rows.filter depositRowKeep).filterMap mkDepositRecord)

/-- The rows displayed for a window: those whose expiration date lies
between the window bounds, inclusive. -/
def depositsInRange (rows : List DepositInfoRow) (range : CivilDate × CivilDate) :
    List DepositInfoRow :=
  rows.filter (fun row => dateLE range.1 row.expirationDate
                          && dateLE row.expirationDate range.2)

/-- The derived `data` view: empty when no valid window start is
selected, otherwise the in-window subset of the stored rows. -/
def visibleDepositRows (rows : List DepositInfoRow) (startStr : String) :
    List DepositInfoRow :=
  match depositDateRange startStr with
  | none => []
  | some range => depositsInRange rows range

/-- Clinic key of a revenue, deposit purchase or cash-in row (blank
falls back to the sentinel). -/
def clinicKey (row : AnyRow) : String :=
  strOr (stringFrom row "Clinic Code") "Unknown"

/-- Fresh revenue accumulator for a clinic. -/
def revenueInit (c : String) : RevenueClinicSummary := ⟨c, 0, 0, 0, 0, 0, 0, 0⟩

/-- One revenue row's contribution to its clinic summary: the
case-insensitive item type routes the retail price, selling price and
discount to the treatment or product bucket (or neither), and the final
price is always added to the total. -/
def revenueApply (row : AnyRow) (s : RevenueClinicSummary) : RevenueClinicSummary :=
  let itemType := lowerStringFrom row "Purchase Item Type"
  let retailPrice := numberFrom row "Total Retail Price"
  let sellingPrice := numberFrom row "Total Selling Price"
  let discount := numberFrom row "Total Discount"
  let finalPrice := numberFrom row "Total Final Price"
  let s₂ :=
    if itemType = "treatment" then
      { s with treatmentRetailPrice := s.treatmentRetailPrice + retailPrice,
               treatmentSellingPrice := s.treatmentSellingPrice + sellingPrice,
               treatmentDiscount := s.treatmentDiscount + discount }
    else if itemType = "product" then
      { s with productRetailPrice := s.productRetailPrice + retailPrice,
               productSellingPrice := s.productSellingPrice + sellingPrice,
               productDiscount := s.productDiscount + discount }
    else s
  { s₂ with total := s₂.total + finalPrice }

/-- One step of the revenue aggregator. -/
def revenueStep (m : List (String × RevenueClinicSummary)) (row : AnyRow) :
    List (String × RevenueClinicSummary) :=
  upsert m (clinicKey row) (revenueInit (clinicKey row)) (revenueApply row)

/-- The revenue clinic map after folding all rows. -/
def revenueFold (rows : List AnyRow) (m : List (String × RevenueClinicSummary)) :
    List (String × RevenueClinicSummary) :=
  aggFold clinicKey revenueInit revenueApply rows m

/-- Order of clinic summaries in every pipeline's output. -/
def clinicCodeLE {α : Type} (code : α → String) (a b : α) : Bool :=
  code a ≤ code b

/-- Revenue pipeline: aggregate per clinic and sort by clinic code. -/
def handleRevenueUpload (rows : List AnyRow) : List RevenueClinicSummary :=
  sortByLE (clinicCodeLE RevenueClinicSummary.clinicCode)
    ((revenueFold rows []).map Prod.snd)

/-- Grand totals of the revenue report (no clinic code field). -/
structure RevenueTotals where
  treatmentRetailPrice : Rat
  treatmentSellingPrice : Rat
  treatmentDiscount : Rat
  productRetailPrice : Rat
  productSellingPrice : Rat
  productDiscount : Rat
  total : Rat
deriving DecidableEq, Repr

/-- Totals reducer of the revenue pipeline: `none` for an empty map,
else the field-wise sum over all clinic summaries. -/
def revenueTotalsOf (data : List RevenueClinicSummary) : Option RevenueTotals :=
  if data.length = 0 then none
  else some (data.foldl
    (fun acc clinic =>
      { treatmentRetailPrice := acc.treatmentRetailPrice + clinic.treatmentRetailPrice
        treatmentSellingPrice := acc.treatmentSellingPrice + clinic.treatmentSellingPrice
        treatmentDiscount := acc.treatmentDiscount + clinic.treatmentDiscount
        productRetailPrice := acc.productRetailPrice + clinic.productRetailPrice
        productSellingPrice := acc.productSellingPrice + clinic.productSellingPrice
        productDiscount := acc.productDiscount + clinic.productDiscount
        total := acc.total + clinic.total })
    ⟨0, 0, 0, 0, 0, 0, 0⟩)

/-- The independent revenue checksum derived from the subtotal
fields. -/
def revenueChecksum2 (t : RevenueTotals) : Rat :=
  t.treatmentSellingPrice + t.productSellingPrice
    - t.treatmentDiscount - t.productDiscount

/-- Cross-validation of the revenue totals: the accumulated total and
the checksum must agree within an absolute tolerance of 0.01. -/
def revenueValidationPass (t : RevenueTotals) : Bool :=
  |t.total - (t.treatmentSellingPrice + t.productSellingPrice
              - t.treatmentDiscount - t.productDiscount)| < (0.01 : Rat)

/-- The rendered validation verdict. -/
def revenueValidationLabel (t : RevenueTotals) : String :=
  if revenueValidationPass t then "PASS" else "FAIL"

/-- Fresh deposit purchase accumulator for a clinic. -/
def depositPurchaseInit (c : String) : DepositPurchaseClinicSummary := ⟨c, 0, 0, 0, 0⟩

/-- One deposit purchase row's contribution: all four numeric fields
accumulate unconditionally. -/
def depositPurchaseApply (row : AnyRow) (s : DepositPurchaseClinicSummary) :
    DepositPurchaseClinicSummary :=
  let retailPrice := numberFrom row "Total Retail Price"
  let sellingPrice := numberFrom row "Total Selling Price"
  let discount := numberFrom row "Total Discount"
  let finalPrice := numberFrom row "Total Final Price"
  { s with totalRetailPrice := s.totalRetailPrice + retailPrice,
           totalSellingPrice := s.totalSellingPrice + sellingPrice,
           totalDiscount := s.totalDiscount + discount,
           total := s.total + finalPrice }

/-- The deposit purchase clinic map after folding all rows. -/
def depositPurchaseFold (rows : List AnyRow)
    (m : List (String × DepositPurchaseClinicSummary)) :
    List (String × DepositPurchaseClinicSummary) :=
  aggFold clinicKey depositPurchaseInit depositPurchaseApply rows m

/-- Deposit purchase pipeline: aggregate per clinic and sort. -/
def handleDepositPurchaseUpload (rows : List AnyRow) :
    List DepositPurchaseClinicSummary :=
  sortByLE (clinicCodeLE DepositPurchaseClinicSummary.clinicCode)
    ((depositPurchaseFold rows []).map Prod.snd)

/-- Accumulate an amount onto a payment method label in the
insertion-ordered method-totals object
(`totals[m] = (totals[m] || 0) + amount`). -/
def addToMethod (l : List (String × Rat)) (k : String) (a : Rat) :
    List (String × Rat) :=
  match l with
  | [] => [(k, a)]
  | (k₀, v) :: t => if k₀ = k then (k₀, v + a) :: t else (k₀, v) :: addToMethod t k a

/-- Payment method label of a cash-in row (blank falls back to the
sentinel). -/
def methodKey (row : AnyRow) : String :=
  strOr (stringFrom row "Payment Method") "Unknown"

/-- Fresh cash-in accumulator for a clinic. -/
def cashInInit (c : String) : CashInClinicSummary := ⟨c, [], 0, 0, 0, 0⟩

/-- One cash-in row's contribution: the amount (currency coercion) is
added to the method's bucket and to the total, and also to `deposit` or
`voucher` when the method label matches exactly. -/
def cashInApply (row : AnyRow) (s : CashInClinicSummary) : CashInClinicSummary :=
  let paymentMethod := methodKey row
  let amount := amountFrom row "Amount"
  let s₂ := { s with
    paymentMethodTotals := addToMethod s.paymentMethodTotals paymentMethod amount,
    total := s.total + amount }
  let s₃ := if paymentMethod = "Treatment Deposit"
    then { s₂ with deposit := s₂.deposit + amount } else s₂
  if paymentMethod = "Clinic Voucher - Value"
      ∨ paymentMethod = "Clinic Voucher - Treatment"
    then { s₃ with voucher := s₃.voucher + amount } else s₃

/-- The cash-in clinic map after folding all rows. -/
def cashInFold (rows : List AnyRow) (m : List (String × CashInClinicSummary)) :
    List (String × CashInClinicSummary) :=
  aggFold clinicKey cashInInit cashInApply rows m

/-- Post-accumulation derivation of the non-deposit, non-voucher
amount. -/
def cashInDerive (s : CashInClinicSummary) : CashInClinicSummary :=
  { s with nonDepositVoucher := s.total - s.deposit - s.voucher }

/-- Cash-in pipeline: aggregate per clinic, recompute the derived field
once accumulation completes, and sort. -/
def handleCashinUpload (rows : List AnyRow) : List CashInClinicSummary :=
  sortByLE (clinicCodeLE CashInClinicSummary.clinicCode)
    (((cashInFold rows []).map Prod.snd).map cashInDerive)

/-- Sum of the amounts recorded in a method-totals object. -/
def pmValuesSum (l : List (String × Rat)) : Rat :=
  (l.map Prod.snd).sum

/-- Amount recorded for one method label, 0 when absent. -/
def pmAmount (l : List (String × Rat)) (k : String) : Rat :=
  (assocLookup k l).getD 0

/-- Exact acceptance domain of `parseDate`: a nonempty string whose
segment before the first space splits on `/` into exactly three
components, each coercing to a finite number. -/
def parseDateAccepts (v : CellValue) : Bool :=
  match v with
  | CellValue.str s =>
    if s = "" then false
    else
      let parts := ((s.splitOn " ").headD "").splitOn "/"
      if parts.length ≠ 3 then false
      else ((jsNumber (parts.getD 0 "")).isSome && (jsNumber (parts.getD 1 "")).isSome
            && (jsNumber (parts.getD 2 "")).isSome)
  | _ => false

/-- Modelled from the spec's words, for comparison with `parseDate`: a
string of the form `DD/MM/YYYY` — day, month and year components made
of decimal digits — optionally followed by a time component after the
first space. -/
def specFormDDMMYYYY (s : String) : Bool :=
  let parts := ((s.splitOn " ").headD "").splitOn "/"
  parts.length = 3 && parts.all (fun p => (p != "") && p.toList.all Char.isDigit)

/-! ### Generic lemmas about the map and sorting helpers -/

theorem assocLookup_upsert_self {α : Type} (m : List (String × α)) (k : String)
    (i : α) (f : α → α) :
    assocLookup k (upsert m k i f) = some (f ((assocLookup k m).getD i)) := by
  induction m with
  | nil => simp [upsert, assocLookup]
  | cons p t ih =>
    obtain ⟨k₀, v⟩ := p
    by_cases h : k₀ = k
    · simp [upsert, assocLookup, h]
    · simp [upsert, assocLookup, h, ih]

theorem assocLookup_upsert_ne {α : Type} (m : List (String × α)) (k : String)
    (i : α) (f : α → α) (c : String) (h : c ≠ k) :
    assocLookup c (upsert m k i f) = assocLookup c m := by
  induction m with
  | nil => simp [upsert, assocLookup, Ne.symm h]
  | cons p t ih =>
    obtain ⟨k₀, v⟩ := p
    by_cases hk : k₀ = k
    · subst hk
      simp [upsert, assocLookup, Ne.symm h]
    · simp [upsert, assocLookup, hk, ih]

theorem lookupOr_upsert {α : Type} (init : String → α) (m : List (String × α))
    (k : String) (f : α → α) (c : String) :
    lookupOr init (upsert m k (init k) f) c
      = if k = c then f (lookupOr init m c) else lookupOr init m c := by
  by_cases h : k = c
  · subst h; simp [lookupOr, assocLookup_upsert_self]
  · simp [lookupOr, assocLookup_upsert_ne m k (init k) f c (Ne.symm h), h]

theorem mem_upsert_values {α : Type} (P : α → Prop) (m : List (String × α))
    (k : String) (i : α) (f : α → α)
    (hm : ∀ p ∈ m, P p.2) (hi : P i) (hf : ∀ v, P v → P (f v)) :
    ∀ p ∈ upsert m k i f, P p.2 := by
  induction m with
  | nil =>
    intro p hp
    simp [upsert] at hp
    simp [hp, hf i hi]
  | cons q t ih =>
    obtain ⟨k₀, v⟩ := q
    by_cases h : k₀ = k
    · intro p hp
      simp only [upsert, h, if_pos rfl] at hp
      rcases List.mem_cons.mp hp with hp | hp
      · simp [hp]
        exact hf v (hm (k₀, v) (List.mem_cons_self _ _))
      · exact hm p (List.mem_cons_of_mem _ hp)
    · intro p hp
      simp only [upsert, h, if_neg h] at hp
      rcases List.mem_cons.mp hp with hp | hp
      · exact hp ▸ hm (k₀, v) (List.mem_cons_self _ _)
      · exact ih (fun q hq => hm q (List.mem_cons_of_mem _ hq)) p hp

theorem aggFold_values {α : Type} (key : AnyRow → String) (init : String → α)
    (apply : AnyRow → α → α) (P : α → Prop)
    (hinit : ∀ c, P (init c)) (happly : ∀ row v, P v → P (apply row v)) :
    ∀ (rows : List AnyRow) (m : List (String × α)), (∀ p ∈ m, P p.2) →
      ∀ p ∈ aggFold key init apply rows m, P p.2 := by
  intro rows
  induction rows with
  | nil => intro m hm; simpa [aggFold] using hm
  | cons row t ih =>
    intro m hm
    have hstep : aggFold key init apply (row :: t) m
        = aggFold key init apply t (upsert m (key row) (init (key row)) (apply row)) := rfl
    rw [hstep]
    exact ih _ (mem_upsert_values P m _ _ _ hm (hinit _) (happly row))

theorem lookupOr_aggFold {α : Type} (key : AnyRow → String) (init : String → α)
    (apply : AnyRow → α → α) :
    ∀ (rows : List AnyRow) (m : List (String × α)) (c : String),
      lookupOr init (aggFold key init apply rows m) c
        = (rows.filter (fun row => key row == c)).foldl
            (fun s row => apply row s) (lookupOr init m c) := by
  intro rows
  induction rows with
  | nil => intro m c; rfl
  | cons row t ih =>
    intro m c
    have hstep : aggFold key init apply (row :: t) m
        = aggFold key init apply t (upsert m (key row) (init (key row)) (apply row)) := rfl
    rw [hstep, ih]
    rw [lookupOr_upsert init m (key row) (apply row) c]
    by_cases h : key row = c
    · simp [h, List.filter_cons]
    · simp [h, List.filter_cons]

theorem foldl_perm_of_comm {α β : Type} (f : β → α → β)
    (hc : ∀ b a₁ a₂, f (f b a₁) a₂ = f (f b a₂) a₁) :
    ∀ {l₁ l₂ : List α}, l₁.Perm l₂ → ∀ b, l₁.foldl f b = l₂.foldl f b := by
  intro l₁ l₂ h
  induction h with
  | nil => intro b; rfl
  | cons x _ ih => intro b; exact ih (f b x)
  | swap x y l => intro b; simp only [List.foldl]; rw [hc]
  | trans _ _ ih₁ ih₂ => intro b; rw [ih₁ b, ih₂ b]

theorem perm_insertLE {α : Type} (le : α → α → Bool) (a : α) :
    ∀ l : List α, (insertLE le a l).Perm (a :: l) := by
  intro l
  induction l with
  | nil => exact List.Perm.refl _
  | cons b t ih =>
    simp only [insertLE]
    by_cases h : le a b = true
    · rw [if_pos h]
    · rw [if_neg h]
      exact (ih.cons b).trans (List.Perm.swap a b t)

theorem perm_sortByLE {α : Type} (le : α → α → Bool) :
    ∀ l : List α, (sortByLE le l).Perm l := by
  intro l
  induction l with
  | nil => exact List.Perm.refl _
  | cons a t ih => exact (perm_insertLE le a _).trans (ih.cons a)

theorem mem_sortByLE {α : Type} (le : α → α → Bool) (a : α) (l : List α) :
    a ∈ sortByLE le l ↔ a ∈ l :=
  (perm_sortByLE le l).mem_iff

/-! ### Claim theorems -/

/-- Claim C1: the independent revenue checksum is
`(treatmentSellingPrice + productSellingPrice) -
(treatmentDiscount + productDiscount)` over the grand totals, and
validation yields `PASS` exactly when the absolute difference between
the accumulated grand total and this checksum is below the tolerance
0.01; the result is always one of the two labels (a pass/fail datum,
never a thrown error), and the spec's `total = 730` example passes
while `total = 731` fails. -/
theorem revenue_validation_spec :
    (∀ t : RevenueTotals, revenueChecksum2 t
        = (t.treatmentSellingPrice + t.productSellingPrice)
          - (t.treatmentDiscount + t.productDiscount)) ∧
    (∀ t : RevenueTotals,
        (revenueValidationLabel t = "PASS"
          ↔ |t.total - revenueChecksum2 t| < (1 : Rat) / 100)) ∧
    (∀ t : RevenueTotals,
        revenueValidationLabel t = "PASS" ∨ revenueValidationLabel t = "FAIL") ∧
    revenueValidationLabel ⟨0, 500, 50, 0, 300, 20, 730⟩ = "PASS" ∧
    revenueValidationLabel ⟨0, 500, 50, 0, 300, 20, 731⟩ = "FAIL" := by
  refine ⟨fun t => by unfold revenueChecksum2; ring, fun t => ?_, fun t => ?_, ?_, ?_⟩
  · unfold revenueValidationLabel revenueValidationPass revenueChecksum2
    have htol : (0.01 : Rat) = (1 : Rat) / 100 := by norm_num
    rw [htol]
    split_ifs with h
    · simp only [true_iff]
      simpa using h
    · constructor
      · intro hx; exact absurd hx (by simp)
      · intro hx; exact absurd (by simpa using hx) h
  · unfold revenueValidationLabel
    split_ifs <;> simp
  · with_unfolding_all rfl
  · with_unfolding_all rfl

/-- Witness for C1: at the spec's concrete grand totals the checksum is
`800 - 70` and validation passes. -/
theorem revenue_validation_spec_witness :
    revenueChecksum2 ⟨0, 500, 50, 0, 300, 20, 730⟩ = (500 + 300) - (50 + 20) ∧
    revenueValidationLabel ⟨0, 500, 50, 0, 300, 20, 730⟩ = "PASS" :=
  ⟨revenue_validation_spec.1 ⟨0, 500, 50, 0, 300, 20, 730⟩,
   revenue_validation_spec.2.2.2.1⟩

/-- Claim C5 as stated is false: `parseDate` also returns a date on the
string `"//"`, whose components are empty rather than of the digit form
`DD/MM/YYYY` (JavaScript `Number("")` is 0, which is finite). -/
theorem parseDate_ddmmyyyy_counterexample :
    (parseDate (CellValue.str "//")).isSome = true
      ∧ specFormDDMMYYYY "//" = false := by
  constructor
  · with_unfolding_all rfl
  · with_unfolding_all rfl

/-- Claim C5, amended: `parseDate` returns a date exactly when the
input is a nonempty string whose segment before the first space splits
on `/` into exactly three components each of which coerces to a finite
number (digit components as in `DD/MM/YYYY` qualify, but empty, signed,
or fractional components that coerce to finite numbers are also
accepted); any other input yields no value. -/
theorem parseDate_domain_amended :
    (∀ v : CellValue, (parseDate v).isSome = parseDateAccepts v) ∧
    (parseDate (CellValue.str "15/03/2024 10:00")).isSome = true ∧
    parseDate (CellValue.num 5) = none ∧
    parseDate CellValue.other = none := by
  refine ⟨fun v => ?_, by with_unfolding_all rfl, rfl, rfl⟩
  cases v with
  | num q => simp [parseDate, parseDateAccepts]
  | other => simp [parseDate, parseDateAccepts]
  | str s =>
    by_cases hs : s = ""
    · simp [parseDate, parseDateAccepts, hs]
    · simp only [parseDate, parseDateAccepts]
      rw [if_neg hs, if_neg hs]
      generalize ((s.splitOn " ").headD "").splitOn "/" = parts
      by_cases hl : parts.length = 3
      · obtain ⟨a, b, c, rfl⟩ := List.length_eq_three.mp hl
        simp only [List.getD, List.length_cons, List.length_nil]
        norm_num
        cases jsNumber a <;> cases jsNumber b <;> cases jsNumber c <;> simp
      · simp [hl]

/-- Claim C6: `amountFrom` passes numbers through, strips every
non-digit character from strings and reads the remaining digits as an
integer (so `"Rp310.000"`, `"310.000"` and the number `310000` all give
310000), and an empty or all-non-digit string gives 0; being a total
function it never throws. -/
theorem amountFrom_coercion :
    amountFrom [("Amount", CellValue.str "Rp310.000")] "Amount" = 310000 ∧
    amountFrom [("Amount", CellValue.str "310.000")] "Amount" = 310000 ∧
    amountFrom [("Amount", CellValue.num 310000)] "Amount" = 310000 ∧
    (∀ (row : AnyRow) (key : String) (s : String),
      cellAt row key = CellValue.str s →
      s.toList.all (fun c => !c.isDigit) = true →
      amountFrom row key = 0) := by
  refine ⟨by with_unfolding_all rfl, by with_unfolding_all rfl, rfl, ?_⟩
  intro row key s hc hall
  have hnil : List.filter Char.isDigit s.toList = [] := by
    rw [List.filter_eq_nil_iff]
    intro c hcmem
    simpa using (List.all_eq_true.mp hall) c hcmem
  simp only [amountFrom, hc]
  rw [hnil]
  simp

/-- Witness for C6: the all-non-digit string `"abc"` coerces to 0. -/
theorem amountFrom_coercion_witness :
    amountFrom [("Amount", CellValue.str "abc")] "Amount" = 0 :=
  amountFrom_coercion.2.2.2 [("Amount", CellValue.str "abc")] "Amount" "abc"
    (by with_unfolding_all rfl) (by with_unfolding_all rfl)

/-- Claim C10: a negative numeric cell passes through `amountFrom` with
its sign, but string cells lose the minus sign with every other
non-digit character, so `"-500"` and `"(500)"` coerce to positive 500
and a string cell can never produce a negative amount. -/
theorem amountFrom_sign_asymmetry :
    amountFrom [("Amount", CellValue.num (-500))] "Amount" = -500 ∧
    amountFrom [("Amount", CellValue.str "-500")] "Amount" = 500 ∧
    amountFrom [("Amount", CellValue.str "(500)")] "Amount" = 500 ∧
    (∀ (row : AnyRow) (key : String) (s : String),
      cellAt row key = CellValue.str s → 0 ≤ amountFrom row key) := by
  refine ⟨rfl, by with_unfolding_all rfl, by with_unfolding_all rfl, ?_⟩
  intro row key s hc
  simp only [amountFrom, hc]
  split_ifs
  · exact le_refl 0
  · exact_mod_cast Nat.zero_le _

/-- Witness for C10: the negatively formatted string `"-500"` yields a
non-negative amount. -/
theorem amountFrom_sign_asymmetry_witness :
    (0 : Rat) ≤ amountFrom [("Amount", CellValue.str "-500")] "Amount" :=
  amountFrom_sign_asymmetry.2.2.2 [("Amount", CellValue.str "-500")] "Amount"
    "-500" (by with_unfolding_all rfl)

/-! ### Date window lemmas -/

theorem normDaysF_in_range (fuel : Nat) (y m d : Int)
    (h1 : 1 ≤ d) (h2 : d ≤ daysInMonth y m) :
    normDaysF (fuel + 1) y m d = ⟨y, m, d⟩ := by
  simp only [normDaysF]
  rw [if_neg (by omega), if_neg (by omega)]

theorem normDays_in_range (y m d : Int) (h1 : 1 ≤ d) (h2 : d ≤ daysInMonth y m) :
    normDays y m d = ⟨y, m, d⟩ := by
  unfold normDays
  exact normDaysF_in_range (d.natAbs + 1) y m d h1 h2

theorem mkCivil_valid (y m d : Int) (hm1 : 0 ≤ m) (hm2 : m ≤ 11)
    (h1 : 1 ≤ d) (h2 : d ≤ daysInMonth y m) :
    mkCivil y m d = ⟨y, m, d⟩ := by
  simp only [mkCivil]
  have he : (y * 12 + m) % 12 = m := by omega
  have hd : (y * 12 + m) / 12 = y := by omega
  rw [he, hd]
  exact normDays_in_range y m d h1 h2

set_option maxRecDepth 8000 in
/-- Claim C3: the deposit window end is always the start advanced by
exactly two calendar months (characterized without and with year
rollover under the usual day-of-month validity condition; calendar
overflow otherwise normalizes as `setMonth` does), a normalized deposit
record is displayed precisely when its expiration date lies in
`[start, end]` inclusive on both ends, and for start `2024-01-15` the
end is `2024-03-15`, with a record expiring `2024-03-15` included and
one expiring `2024-03-16` excluded. -/
theorem deposit_window_spec :
    (∀ (startStr : String) (a b : CivilDate),
        depositDateRange startStr = some (a, b) →
        b = dateSetMonth a (a.month + 2)) ∧
    (∀ y m d : Int, 0 ≤ m → m ≤ 9 → 1 ≤ d → d ≤ daysInMonth y (m + 2) →
        dateSetMonth ⟨y, m, d⟩ (m + 2) = ⟨y, m + 2, d⟩) ∧
    (∀ y m d : Int, 10 ≤ m → m ≤ 11 → 1 ≤ d → d ≤ daysInMonth (y + 1) (m - 10) →
        dateSetMonth ⟨y, m, d⟩ (m + 2) = ⟨y + 1, m - 10, d⟩) ∧
    (∀ (rows : List DepositInfoRow) (range : CivilDate × CivilDate)
        (r : DepositInfoRow),
        r ∈ depositsInRange rows range
          ↔ r ∈ rows ∧ dateLE range.1 r.expirationDate = true
              ∧ dateLE r.expirationDate range.2 = true) ∧
    depositDateRange "2024-01-15" = some (⟨2024, 0, 15⟩, ⟨2024, 2, 15⟩) ∧
    (⟨"A", "u1", "", "", "", "", ⟨2024, 2, 15⟩⟩ : DepositInfoRow) ∈
        visibleDepositRows
          [⟨"A", "u1", "", "", "", "", ⟨2024, 2, 15⟩⟩,
           ⟨"A", "u2", "", "", "", "", ⟨2024, 2, 16⟩⟩] "2024-01-15" ∧
    (⟨"A", "u2", "", "", "", "", ⟨2024, 2, 16⟩⟩ : DepositInfoRow) ∉
        visibleDepositRows
          [⟨"A", "u1", "", "", "", "", ⟨2024, 2, 15⟩⟩,
           ⟨"A", "u2", "", "", "", "", ⟨2024, 2, 16⟩⟩] "2024-01-15" := by
  refine ⟨?_, ?_, ?_, ?_, ?_, ?_, ?_⟩
  · intro startStr a b h
    unfold depositDateRange at h
    cases hf : fromDateInputValue startStr with
    | none => rw [hf] at h; exact absurd h (by simp)
    | some start => rw [hf] at h; simp at h; rw [← h.1, ← h.2]
  · intro y m d hm1 hm2 hd1 hd2
    unfold dateSetMonth
    exact mkCivil_valid y (m + 2) d (by omega) (by omega) hd1 hd2
  · intro y m d hm1 hm2 hd1 hd2
    simp only [dateSetMonth, mkCivil]
    have he : (y * 12 + (m + 2)) % 12 = m - 10 := by omega
    have hd : (y * 12 + (m + 2)) / 12 = y + 1 := by omega
    rw [he, hd]
    exact normDays_in_range (y + 1) (m - 10) d hd1 hd2
  · intro rows range r
    simp [depositsInRange, List.mem_filter]
  · with_unfolding_all rfl
  · exact of_decide_eq_true (by with_unfolding_all rfl)
  · exact of_decide_eq_true (by with_unfolding_all rfl)

/-- Witness for C3: two calendar-month advances at concrete dates, with
and without year rollover, derived from the general statement. -/
theorem deposit_window_spec_witness :
    dateSetMonth ⟨2024, 0, 15⟩ (0 + 2) = ⟨2024, 0 + 2, 15⟩ ∧
    dateSetMonth ⟨2024, 11, 28⟩ (11 + 2) = ⟨2024 + 1, 11 - 10, 28⟩ :=
  ⟨deposit_window_spec.2.1 2024 0 15 (by omega) (by omega) (by omega) (by decide),
   deposit_window_spec.2.2.1 2024 11 28 (by omega) (by omega) (by omega)
      (by decide)⟩

/-- Claim C4: a raw row yields a retained deposit record if and only if
its remaining quantity (via `numberFrom`) is strictly positive, its
user id string is non-empty and its expiration time parses via
`parseDate`; rows failing any of these are absent from the normalized
set regardless of the other fields, which may all be blank. -/
theorem deposit_normalizer_spec :
    (∀ (rows : List AnyRow) (r : DepositInfoRow),
        r ∈ handleFileUpload rows
          ↔ ∃ row, row ∈ rows ∧ 0 < numberFrom row "Remaining Quantity"
              ∧ mkDepositRecord row = some r) ∧
    (∀ row : AnyRow, (mkDepositRecord row).isSome
          ↔ (stringFrom row "User ID" ≠ ""
              ∧ (parseDate (cellAt row "Deposit Expiration Time")).isSome)) := by
  constructor
  · intro rows r
    rw [handleFileUpload, mem_sortByLE]
    simp [List.mem_filterMap, List.mem_filter, depositRowKeep, and_assoc]
  · intro row
    unfold mkDepositRecord
    cases h : parseDate (cellAt row "Deposit Expiration Time") with
    | none => simp [h]
    | some d =>
      by_cases hu : stringFrom row "User ID" = "" <;> simp [h, hu]

/-- Witness for C4: a concrete valid row is retained, and its record's
inclusion conditions hold. -/
theorem deposit_normalizer_spec_witness :
    (⟨"A", "u1", "", "", "", "", ⟨2024, 2, 15⟩⟩ : DepositInfoRow) ∈
      handleFileUpload
        [[("Deposit Purchase Clinic Code", CellValue.str "A"),
          ("User ID", CellValue.str "u1"),
          ("Deposit Expiration Time", CellValue.str "15/03/2024 00:00"),
          ("Remaining Quantity", CellValue.num 2)]] :=
  (deposit_normalizer_spec.1
      [[("Deposit Purchase Clinic Code", CellValue.str "A"),
        ("User ID", CellValue.str "u1"),
        ("Deposit Expiration Time", CellValue.str "15/03/2024 00:00"),
        ("Remaining Quantity", CellValue.num 2)]]
      ⟨"A", "u1", "", "", "", "", ⟨2024, 2, 15⟩⟩).mpr
    ⟨[("Deposit Purchase Clinic Code", CellValue.str "A"),
      ("User ID", CellValue.str "u1"),
      ("Deposit Expiration Time", CellValue.str "15/03/2024 00:00"),
      ("Remaining Quantity", CellValue.num 2)],
     by simp,
     by with_unfolding_all (exact of_decide_eq_true rfl),
     by with_unfolding_all rfl⟩

/-! ### Revenue classification -/

/-- Claim C2: every revenue row's case-insensitive item type is
classified as exactly one of treatment, product or neither; treatment
rows add retail price, selling price and discount to the treatment
subtotals, product rows to the product subtotals, unrecognized rows to
neither bucket, and in all three cases the final price is added to the
clinic's grand total; other clinics' summaries are untouched. -/
theorem revenue_classification_spec
    (m : List (String × RevenueClinicSummary)) (row : AnyRow) :
    ¬(lowerStringFrom row "Purchase Item Type" = "treatment"
        ∧ lowerStringFrom row "Purchase Item Type" = "product") ∧
    (lowerStringFrom row "Purchase Item Type" = "treatment" →
      lookupOr revenueInit (revenueStep m row) (clinicKey row)
        = { lookupOr revenueInit m (clinicKey row) with
            treatmentRetailPrice :=
              (lookupOr revenueInit m (clinicKey row)).treatmentRetailPrice
                + numberFrom row "Total Retail Price"
            treatmentSellingPrice :=
              (lookupOr revenueInit m (clinicKey row)).treatmentSellingPrice
                + numberFrom row "Total Selling Price"
            treatmentDiscount :=
              (lookupOr revenueInit m (clinicKey row)).treatmentDiscount
                + numberFrom row "Total Discount"
            total := (lookupOr revenueInit m (clinicKey row)).total
                + numberFrom row "Total Final Price" }) ∧
    (lowerStringFrom row "Purchase Item Type" = "product" →
      lookupOr revenueInit (revenueStep m row) (clinicKey row)
        = { lookupOr revenueInit m (clinicKey row) with
            productRetailPrice :=
              (lookupOr revenueInit m (clinicKey row)).productRetailPrice
                + numberFrom row "Total Retail Price"
            productSellingPrice :=
              (lookupOr revenueInit m (clinicKey row)).productSellingPrice
                + numberFrom row "Total Selling Price"
            productDiscount :=
              (lookupOr revenueInit m (clinicKey row)).productDiscount
                + numberFrom row "Total Discount"
            total := (lookupOr revenueInit m (clinicKey row)).total
                + numberFrom row "Total Final Price" }) ∧
    (lowerStringFrom row "Purchase Item Type" ≠ "treatment" →
      lowerStringFrom row "Purchase Item Type" ≠ "product" →
      lookupOr revenueInit (revenueStep m row) (clinicKey row)
        = { lookupOr revenueInit m (clinicKey row) with
            total := (lookupOr revenueInit m (clinicKey row)).total
                + numberFrom row "Total Final Price" }) ∧
    (∀ c, c ≠ clinicKey row →
      lookupOr revenueInit (revenueStep m row) c = lookupOr revenueInit m c) := by
  have hstep : lookupOr revenueInit (revenueStep m row) (clinicKey row)
      = revenueApply row (lookupOr revenueInit m (clinicKey row)) := by
    unfold revenueStep
    rw [lookupOr_upsert revenueInit m (clinicKey row) (revenueApply row) (clinicKey row)]
    rw [if_pos rfl]
  refine ⟨?_, ?_, ?_, ?_, ?_⟩
  · rintro ⟨h1, h2⟩
    rw [h1] at h2
    exact absurd h2 (by decide)
  · intro h1
    rw [hstep]
    simp [revenueApply, h1]
  · intro h2
    rw [hstep]
    simp [revenueApply, h2]
  · intro h1 h2
    rw [hstep]
    simp [revenueApply, h1, h2]
  · intro c hc
    unfold revenueStep
    rw [lookupOr_upsert revenueInit m (clinicKey row) (revenueApply row) c]
    rw [if_neg (Ne.symm hc)]

/-- Witness for C2: a mixed-case `"Treatment"` row routes its prices to
the treatment bucket of its clinic accumulator. -/
theorem revenue_classification_spec_witness :
    lookupOr revenueInit
      (revenueStep []
        [("Clinic Code", CellValue.str "B"),
         ("Purchase Item Type", CellValue.str "Treatment"),
         ("Total Retail Price", CellValue.num 100),
         ("Total Selling Price", CellValue.num 500),
         ("Total Discount", CellValue.num 50),
         ("Total Final Price", CellValue.num 450)])
      (clinicKey
        [("Clinic Code", CellValue.str "B"),
         ("Purchase Item Type", CellValue.str "Treatment"),
         ("Total Retail Price", CellValue.num 100),
         ("Total Selling Price", CellValue.num 500),
         ("Total Discount", CellValue.num 50),
         ("Total Final Price", CellValue.num 450)])
      = ⟨"B", 100, 500, 50, 0, 0, 0, 450⟩ := by
  have h := (revenue_classification_spec []
    [("Clinic Code", CellValue.str "B"),
     ("Purchase Item Type", CellValue.str "Treatment"),
     ("Total Retail Price", CellValue.num 100),
     ("Total Selling Price", CellValue.num 500),
     ("Total Discount", CellValue.num 50),
     ("Total Final Price", CellValue.num 450)]).2.1 (by with_unfolding_all rfl)
  rw [h]
  with_unfolding_all rfl

/-! ### Cash-in accumulator lemmas -/

theorem cashInApply_eq (row : AnyRow) (s : CashInClinicSummary) :
    cashInApply row s =
      { clinicCode := s.clinicCode
        paymentMethodTotals :=
          addToMethod s.paymentMethodTotals (methodKey row) (amountFrom row "Amount")
        deposit := s.deposit
          + (if methodKey row = "Treatment Deposit"
             then amountFrom row "Amount" else 0)
        voucher := s.voucher
          + (if methodKey row = "Clinic Voucher - Value"
                ∨ methodKey row = "Clinic Voucher - Treatment"
             then amountFrom row "Amount" else 0)
        nonDepositVoucher := s.nonDepositVoucher
        total := s.total + amountFrom row "Amount" } := by
  simp only [cashInApply]
  split_ifs <;> simp

theorem pmAmount_addToMethod (l : List (String × Rat)) (k : String) (a : Rat)
    (c : String) :
    pmAmount (addToMethod l k a) c = pmAmount l c + (if k = c then a else 0) := by
  induction l with
  | nil =>
    by_cases h : k = c <;> simp [addToMethod, pmAmount, assocLookup, h]
  | cons p t ih =>
    obtain ⟨k₀, v⟩ := p
    by_cases hk : k₀ = k
    · subst hk
      by_cases hc : k₀ = c
      · subst hc
        simp [addToMethod, pmAmount, assocLookup]
      · simp [addToMethod, pmAmount, assocLookup, hc]
    · by_cases hc : k₀ = c
      · subst hc
        have hkc : ¬(k = k₀) := fun h => hk h.symm
        simp [addToMethod, pmAmount, assocLookup, hk, hkc]
      · simp only [pmAmount] at ih
        simp [addToMethod, pmAmount, assocLookup, hk, hc, ih]

theorem pmValuesSum_addToMethod (l : List (String × Rat)) (k : String) (a : Rat) :
    pmValuesSum (addToMethod l k a) = pmValuesSum l + a := by
  induction l with
  | nil => simp [addToMethod, pmValuesSum]
  | cons p t ih =>
    obtain ⟨k₀, v⟩ := p
    by_cases h : k₀ = k
    · simp [addToMethod, pmValuesSum, h]
      ring
    · simp [addToMethod, pmValuesSum, h] at ih ⊢
      rw [ih]
      ring

theorem cashInApply_inv (row : AnyRow) (s : CashInClinicSummary)
    (h1 : s.total = pmValuesSum s.paymentMethodTotals)
    (h2 : s.deposit = pmAmount s.paymentMethodTotals "Treatment Deposit")
    (h3 : s.voucher = pmAmount s.paymentMethodTotals "Clinic Voucher - Value"
        + pmAmount s.paymentMethodTotals "Clinic Voucher - Treatment") :
    (cashInApply row s).total = pmValuesSum (cashInApply row s).paymentMethodTotals
    ∧ (cashInApply row s).deposit
        = pmAmount (cashInApply row s).paymentMethodTotals "Treatment Deposit"
    ∧ (cashInApply row s).voucher
        = pmAmount (cashInApply row s).paymentMethodTotals "Clinic Voucher - Value"
          + pmAmount (cashInApply row s).paymentMethodTotals
              "Clinic Voucher - Treatment" := by
  rw [cashInApply_eq]
  refine ⟨?_, ?_, ?_⟩
  · simp [pmValuesSum_addToMethod, h1]
  · simp [pmAmount_addToMethod, h2]
  · by_cases hv1 : methodKey row = "Clinic Voucher - Value"
    · have hv2 : ¬(methodKey row = "Clinic Voucher - Treatment") := by
        rw [hv1]; decide
      simp [pmAmount_addToMethod, hv1, hv2, h3]
      ring
    · by_cases hv2 : methodKey row = "Clinic Voucher - Treatment"
      · simp [pmAmount_addToMethod, hv1, hv2, h3]
        ring
      · simp [pmAmount_addToMethod, hv1, hv2, h3]

theorem cashInFold_inv (rows : List AnyRow) :
    ∀ p ∈ cashInFold rows [],
      p.2.total = pmValuesSum p.2.paymentMethodTotals
      ∧ p.2.deposit = pmAmount p.2.paymentMethodTotals "Treatment Deposit"
      ∧ p.2.voucher = pmAmount p.2.paymentMethodTotals "Clinic Voucher - Value"
          + pmAmount p.2.paymentMethodTotals "Clinic Voucher - Treatment" := by
  unfold cashInFold
  refine aggFold_values clinicKey cashInInit cashInApply
    (fun v => v.total = pmValuesSum v.paymentMethodTotals
      ∧ v.deposit = pmAmount v.paymentMethodTotals "Treatment Deposit"
      ∧ v.voucher = pmAmount v.paymentMethodTotals "Clinic Voucher - Value"
          + pmAmount v.paymentMethodTotals "Clinic Voucher - Treatment")
    (fun c => ?_)
    (fun row v hv => cashInApply_inv row v hv.1 hv.2.1 hv.2.2) rows [] (by simp)
  simp [cashInInit, pmValuesSum, pmAmount, assocLookup]

/-- Claim C7: every clinic summary published by the cash-in pipeline
has `nonDepositVoucher = total - deposit - voucher`, recomputed once
after accumulation completes; during accumulation the field stays 0 and
is never accumulated incrementally. -/
theorem cashin_derived_field (rows : List AnyRow) :
    (∀ c ∈ handleCashinUpload rows,
        c.nonDepositVoucher = c.total - c.deposit - c.voucher) ∧
    (∀ p ∈ cashInFold rows [], p.2.nonDepositVoucher = 0) := by
  constructor
  · intro c hc
    rw [handleCashinUpload, mem_sortByLE] at hc
    obtain ⟨c₀, hc₀, rfl⟩ := List.mem_map.mp hc
    simp [cashInDerive]
  · unfold cashInFold
    refine aggFold_values clinicKey cashInInit cashInApply
      (fun v => v.nonDepositVoucher = 0) (fun c => rfl)
      (fun row v hv => ?_) rows [] (by simp)
    rw [cashInApply_eq]
    exact hv

set_option maxRecDepth 8000 in
/-- Witness for C7: on a clinic with total 1000, deposit 300 and
voucher 200, the published derived field is 500. -/
theorem cashin_derived_field_witness :
    (⟨"A", [("Treatment Deposit", 300), ("Clinic Voucher - Value", 200),
            ("Cash", 500)], 300, 200, 500, 1000⟩ : CashInClinicSummary).nonDepositVoucher
      = (⟨"A", [("Treatment Deposit", 300), ("Clinic Voucher - Value", 200),
            ("Cash", 500)], 300, 200, 500, 1000⟩ : CashInClinicSummary).total
        - (⟨"A", [("Treatment Deposit", 300), ("Clinic Voucher - Value", 200),
            ("Cash", 500)], 300, 200, 500, 1000⟩ : CashInClinicSummary).deposit
        - (⟨"A", [("Treatment Deposit", 300), ("Clinic Voucher - Value", 200),
            ("Cash", 500)], 300, 200, 500, 1000⟩ : CashInClinicSummary).voucher :=
  (cashin_derived_field
      [[("Clinic Code", CellValue.str "A"),
        ("Payment Method", CellValue.str "Treatment Deposit"),
        ("Amount", CellValue.num 300)],
       [("Clinic Code", CellValue.str "A"),
        ("Payment Method", CellValue.str "Clinic Voucher - Value"),
        ("Amount", CellValue.num 200)],
       [("Clinic Code", CellValue.str "A"),
        ("Payment Method", CellValue.str "Cash"),
        ("Amount", CellValue.num 500)]]).1
    ⟨"A", [("Treatment Deposit", 300), ("Clinic Voucher - Value", 200),
           ("Cash", 500)], 300, 200, 500, 1000⟩
    (by with_unfolding_all (exact of_decide_eq_true rfl))

/-- Claim C9: for every published cash-in clinic summary, `total` is
the sum of all amounts in `paymentMethodTotals`, `deposit` is the
accumulated amount under the exact label `"Treatment Deposit"` (0 when
absent), and `voucher` is the sum of the accumulated amounts under the
exact labels `"Clinic Voucher - Value"` and
`"Clinic Voucher - Treatment"`. -/
theorem cashin_accumulation_invariants (rows : List AnyRow)
    (c : CashInClinicSummary) (h : c ∈ handleCashinUpload rows) :
    c.total = pmValuesSum c.paymentMethodTotals
    ∧ c.deposit = pmAmount c.paymentMethodTotals "Treatment Deposit"
    ∧ c.voucher = pmAmount c.paymentMethodTotals "Clinic Voucher - Value"
        + pmAmount c.paymentMethodTotals "Clinic Voucher - Treatment" := by
  rw [handleCashinUpload, mem_sortByLE] at h
  obtain ⟨c₀, hc₀, rfl⟩ := List.mem_map.mp h
  obtain ⟨p, hp, rfl⟩ := List.mem_map.mp hc₀
  have hinv := cashInFold_inv rows p hp
  simpa [cashInDerive] using hinv

set_option maxRecDepth 8000 in
/-- Witness for C9: a concrete run with a repeated method label and a
deposit row satisfies the total equation. -/
theorem cashin_accumulation_invariants_witness :
    (⟨"B", [("Cash", 200), ("Treatment Deposit", 50)], 50, 0, 200, 250⟩
        : CashInClinicSummary).total
      = pmValuesSum (⟨"B", [("Cash", 200), ("Treatment Deposit", 50)],
          50, 0, 200, 250⟩ : CashInClinicSummary).paymentMethodTotals :=
  (cashin_accumulation_invariants
      [[("Clinic Code", CellValue.str "B"),
        ("Payment Method", CellValue.str "Cash"),
        ("Amount", CellValue.num 100)],
       [("Clinic Code", CellValue.str "B"),
        ("Payment Method", CellValue.str "Cash"),
        ("Amount", CellValue.num 100)],
       [("Clinic Code", CellValue.str "B"),
        ("Payment Method", CellValue.str "Treatment Deposit"),
        ("Amount", CellValue.num 50)]]
      ⟨"B", [("Cash", 200), ("Treatment Deposit", 50)], 50, 0, 200, 250⟩
      (by with_unfolding_all (exact of_decide_eq_true rfl))).1

/-! ### Order independence of the clinic aggregators -/

theorem revenueApply_eq (row : AnyRow) (s : RevenueClinicSummary) :
    revenueApply row s =
      { clinicCode := s.clinicCode
        treatmentRetailPrice := s.treatmentRetailPrice
          + (if lowerStringFrom row "Purchase Item Type" = "treatment"
             then numberFrom row "Total Retail Price" else 0)
        treatmentSellingPrice := s.treatmentSellingPrice
          + (if lowerStringFrom row "Purchase Item Type" = "treatment"
             then numberFrom row "Total Selling Price" else 0)
        treatmentDiscount := s.treatmentDiscount
          + (if lowerStringFrom row "Purchase Item Type" = "treatment"
             then numberFrom row "Total Discount" else 0)
        productRetailPrice := s.productRetailPrice
          + (if lowerStringFrom row "Purchase Item Type" = "product"
             then numberFrom row "Total Retail Price" else 0)
        productSellingPrice := s.productSellingPrice
          + (if lowerStringFrom row "Purchase Item Type" = "product"
             then numberFrom row "Total Selling Price" else 0)
        productDiscount := s.productDiscount
          + (if lowerStringFrom row "Purchase Item Type" = "product"
             then numberFrom row "Total Discount" else 0)
        total := s.total + numberFrom row "Total Final Price" } := by
  simp only [revenueApply]
  split_ifs with h1 h2 <;> simp_all

theorem revenueApply_comm (r₁ r₂ : AnyRow) (s : RevenueClinicSummary) :
    revenueApply r₂ (revenueApply r₁ s) = revenueApply r₁ (revenueApply r₂ s) := by
  simp only [revenueApply_eq]
  congr 1 <;> ring

theorem depositPurchaseApply_comm (r₁ r₂ : AnyRow)
    (s : DepositPurchaseClinicSummary) :
    depositPurchaseApply r₂ (depositPurchaseApply r₁ s)
      = depositPurchaseApply r₁ (depositPurchaseApply r₂ s) := by
  simp only [depositPurchaseApply]
  congr 1 <;> ring

theorem cashFoldl_total (rs : List AnyRow) :
    ∀ s : CashInClinicSummary,
      (rs.foldl (fun s row => cashInApply row s) s).total
        = s.total + (rs.map (fun row => amountFrom row "Amount")).sum := by
  induction rs with
  | nil => intro s; simp
  | cons r t ih =>
    intro s
    simp only [List.foldl_cons, List.map_cons, List.sum_cons]
    rw [ih (cashInApply r s), cashInApply_eq]
    dsimp only
    ring

theorem cashFoldl_deposit (rs : List AnyRow) :
    ∀ s : CashInClinicSummary,
      (rs.foldl (fun s row => cashInApply row s) s).deposit
        = s.deposit + (rs.map (fun row =>
            if methodKey row = "Treatment Deposit"
            then amountFrom row "Amount" else 0)).sum := by
  induction rs with
  | nil => intro s; simp
  | cons r t ih =>
    intro s
    simp only [List.foldl_cons, List.map_cons, List.sum_cons]
    rw [ih (cashInApply r s), cashInApply_eq]
    dsimp only
    ring

theorem cashFoldl_voucher (rs : List AnyRow) :
    ∀ s : CashInClinicSummary,
      (rs.foldl (fun s row => cashInApply row s) s).voucher
        = s.voucher + (rs.map (fun row =>
            if methodKey row = "Clinic Voucher - Value"
                ∨ methodKey row = "Clinic Voucher - Treatment"
            then amountFrom row "Amount" else 0)).sum := by
  induction rs with
  | nil => intro s; simp
  | cons r t ih =>
    intro s
    simp only [List.foldl_cons, List.map_cons, List.sum_cons]
    rw [ih (cashInApply r s), cashInApply_eq]
    dsimp only
    ring

theorem cashFoldl_pm (mth : String) (rs : List AnyRow) :
    ∀ s : CashInClinicSummary,
      pmAmount (rs.foldl (fun s row => cashInApply row s) s).paymentMethodTotals mth
        = pmAmount s.paymentMethodTotals mth + (rs.map (fun row =>
            if methodKey row = mth then amountFrom row "Amount" else 0)).sum := by
  induction rs with
  | nil => intro s; simp
  | cons r t ih =>
    intro s
    simp only [List.foldl_cons, List.map_cons, List.sum_cons]
    rw [ih (cashInApply r s), cashInApply_eq]
    dsimp only
    rw [pmAmount_addToMethod]
    ring

/-- Claim C8: permuting the input row sequence leaves every clinic's
accumulated totals unchanged in all three aggregators — the whole
summary for revenue and deposit purchase, and the total, deposit,
voucher and every payment method bucket for cash-in (only map key
insertion order may differ). -/
theorem aggregation_order_independent (rows₁ rows₂ : List AnyRow)
    (h : rows₁.Perm rows₂) :
    (∀ c, lookupOr revenueInit (revenueFold rows₁ []) c
        = lookupOr revenueInit (revenueFold rows₂ []) c) ∧
    (∀ c, lookupOr depositPurchaseInit (depositPurchaseFold rows₁ []) c
        = lookupOr depositPurchaseInit (depositPurchaseFold rows₂ []) c) ∧
    (∀ c,
      (lookupOr cashInInit (cashInFold rows₁ []) c).total
          = (lookupOr cashInInit (cashInFold rows₂ []) c).total
      ∧ (lookupOr cashInInit (cashInFold rows₁ []) c).deposit
          = (lookupOr cashInInit (cashInFold rows₂ []) c).deposit
      ∧ (lookupOr cashInInit (cashInFold rows₁ []) c).voucher
          = (lookupOr cashInInit (cashInFold rows₂ []) c).voucher
      ∧ ∀ mth,
          pmAmount (lookupOr cashInInit (cashInFold rows₁ []) c).paymentMethodTotals mth
            = pmAmount (lookupOr cashInInit (cashInFold rows₂ []) c).paymentMethodTotals mth) := by
  refine ⟨fun c => ?_, fun c => ?_, fun c => ?_⟩
  · unfold revenueFold
    rw [lookupOr_aggFold, lookupOr_aggFold]
    exact foldl_perm_of_comm (fun s row => revenueApply row s)
      (fun b a₁ a₂ => revenueApply_comm a₁ a₂ b) (h.filter _) _
  · unfold depositPurchaseFold
    rw [lookupOr_aggFold, lookupOr_aggFold]
    exact foldl_perm_of_comm (fun s row => depositPurchaseApply row s)
      (fun b a₁ a₂ => depositPurchaseApply_comm a₁ a₂ b) (h.filter _) _
  · unfold cashInFold
    rw [lookupOr_aggFold, lookupOr_aggFold]
    have hf : (rows₁.filter (fun row => clinicKey row == c)).Perm
        (rows₂.filter (fun row => clinicKey row == c)) := h.filter _
    refine ⟨?_, ?_, ?_, fun mth => ?_⟩
    · rw [cashFoldl_total, cashFoldl_total, (hf.map _).sum_eq]
    · rw [cashFoldl_deposit, cashFoldl_deposit, (hf.map _).sum_eq]
    · rw [cashFoldl_voucher, cashFoldl_voucher, (hf.map _).sum_eq]
    · rw [cashFoldl_pm, cashFoldl_pm, (hf.map _).sum_eq]

/-- Witness for C8: swapping two concrete revenue rows leaves the
clinic's accumulated summary unchanged. -/
theorem aggregation_order_independent_witness :
    lookupOr revenueInit
      (revenueFold
        [[("Clinic Code", CellValue.str "A"),
          ("Purchase Item Type", CellValue.str "treatment"),
          ("Total Selling Price", CellValue.num 10),
          ("Total Final Price", CellValue.num 10)],
         [("Clinic Code", CellValue.str "A"),
          ("Purchase Item Type", CellValue.str "product"),
          ("Total Selling Price", CellValue.num 5),
          ("Total Final Price", CellValue.num 5)]] []) "A"
      = lookupOr revenueInit
        (revenueFold
          [[("Clinic Code", CellValue.str "A"),
            ("Purchase Item Type", CellValue.str "product"),
            ("Total Selling Price", CellValue.num 5),
            ("Total Final Price", CellValue.num 5)],
           [("Clinic Code", CellValue.str "A"),
            ("Purchase Item Type", CellValue.str "treatment"),
            ("Total Selling Price", CellValue.num 10),
            ("Total Final Price", CellValue.num 10)]] []) "A" :=
  (aggregation_order_independent _ _ (List.Perm.swap _ _ _)).1 "A"

end QaTools
